import Mathlib

/-!
Verification development for the pi-acp protocol bridge.

The Lean definitions below are a shallow embedding of the repository
source, component by component:

* `WsServer` embeds `src/server/ws.ts`: the per-connection metadata,
  the rate limiter `isRateLimited`, the inbound message handler of
  `wsToStream`, the connection registry operations, the heartbeat and
  idle-check steps, and the close codes used at each eviction site.
* `PiSessions` embeds `src/acp/pi-sessions.ts`: session log lines are
  modelled at line granularity (blank after trim, JSON-parse failure,
  or a parsed record with the fields the scanner reads), and the
  tiered title / updatedAt extraction is translated function by
  function.  Host date parsing and ISO rendering are oracles passed as
  parameters.
* `Translate` embeds `promptToPiMessage` from the prompt translation
  module; base64 byte-length is an oracle parameter.
* `Errors` embeds the ACP error-code constants and the
  `AuthRequiredError` constructor.
-/

namespace WsServer

/-- Configuration constants from `src/server/ws.ts`. -/
def MAX_CONNECTIONS : Nat := 10

def IDLE_TIMEOUT_MS : Int := 5 * 60 * 1000

def PING_INTERVAL_MS : Int := 30000

def PONG_TIMEOUT_MS : Int := 10000

def RATE_LIMIT_MESSAGES : Nat := 100

def RATE_LIMIT_WINDOW_MS : Int := 60000

/-- Close code used at `closeConnection(ws, 1008, 'Rate limit exceeded')`. -/
def RATE_LIMIT_CLOSE_CODE : Nat := 1008

/-- Close code used at `ws.close(1013, 'Server overloaded')`. -/
def OVERLOADED_CLOSE_CODE : Nat := 1013

/-- Close code used at `closeConnection(ws, 1001, 'Ping timeout')`. -/
def PING_TIMEOUT_CLOSE_CODE : Nat := 1001

/-- Close code used at `closeConnection(ws, 1001, 'Pong timeout')`. -/
def PONG_TIMEOUT_CLOSE_CODE : Nat := 1001

/-- Close code used at `closeConnection(ws, 1011, 'Ping failed')`. -/
def PING_FAILED_CLOSE_CODE : Nat := 1011

/-- Close code used at `closeConnection(ws, 1001, 'Idle timeout')`. -/
def IDLE_TIMEOUT_CLOSE_CODE : Nat := 1001

/-- Close code used at `closeConnection(ws, 1001, 'Server shutting down')`. -/
def SHUTDOWN_CLOSE_CODE : Nat := 1001

/-- Per-connection metadata (`ConnectionMeta` in the source); times are
epoch milliseconds. -/
structure ConnectionMeta where
  lastActivity : Int
  messageCount : Nat
  messageWindowStart : Int
  pingTimeoutArmed : Bool
  isAlive : Bool
deriving DecidableEq, Repr

/-- Metadata created in `onConnection` for a socket accepted at `now`. -/
def initialMeta (now : Int) : ConnectionMeta :=
  { lastActivity := now
    messageCount := 0
    messageWindowStart := now
    pingTimeoutArmed := false
    isAlive := true }

/-- A WebSocket close action: the code and reason passed to `ws.close`. -/
structure CloseAction where
  code : Nat
  reason : String
deriving DecidableEq, Repr

/-- `isRateLimited(meta)`: mutates the window bookkeeping and reports
whether the current message exceeds the limit.  Returned pair is the
boolean result together with the updated metadata. -/
def isRateLimited (now : Int) (m : ConnectionMeta) : Bool × ConnectionMeta :=
  let timeInWindow := now - m.messageWindowStart
  if timeInWindow > RATE_LIMIT_WINDOW_MS then
    (false, { m with messageWindowStart := now, messageCount := 1 })
  else
    let m2 := { m with messageCount := m.messageCount + 1 }
    (decide (m2.messageCount > RATE_LIMIT_MESSAGES), m2)

/-- An inbound WebSocket data frame, abstracted at the level the handler
inspects it: `JSON.parse` throws (`malformed`), parses to a falsy value
(`falsy`), or parses to a truthy object whose `type` field is the given
optional string (`obj`, with `none` for an absent or non-string field). -/
inductive Frame where
  | malformed : Frame
  | falsy : Frame
  | obj : Option String → Frame
deriving DecidableEq, Repr

/-- State of one connection as seen by the `message` handler installed in
`wsToStream`: its metadata, the frames already enqueued to the bridge
stream, and the close action issued for it, if any. -/
structure ConnHandlerState where
  meta : ConnectionMeta
  enqueued : List Frame
  closeEvt : Option CloseAction
deriving DecidableEq, Repr

/-- Handler state right after `onConnection` accepts the socket at `now`. -/
def initialHandlerState (now : Int) : ConnHandlerState :=
  { meta := initialMeta now, enqueued := [], closeEvt := none }

/-- The `ws.on('message', ...)` handler of `wsToStream`: refresh
`lastActivity`, run the rate limiter, on violation close with 1008 and
drop the frame, otherwise parse, filter ping/pong control messages, and
enqueue everything else (including falsy parses) to the bridge stream. -/
def onMessage (now : Int) (s : ConnHandlerState) (f : Frame) : ConnHandlerState :=
  let meta0 := { s.meta with lastActivity := now }
  let p := isRateLimited now meta0
  if p.1 then
    { s with meta := p.2
             closeEvt := some ⟨RATE_LIMIT_CLOSE_CODE, "Rate limit exceeded"⟩ }
  else
    match f with
    | Frame.malformed => { s with meta := p.2 }
    | Frame.falsy => { s with meta := p.2, enqueued := s.enqueued ++ [Frame.falsy] }
    | Frame.obj t =>
        if t = some "ping" ∨ t = some "pong" then
          { s with meta := p.2 }
        else
          { s with meta := p.2, enqueued := s.enqueued ++ [Frame.obj t] }

/-- Deliver a sequence of timed frames to one connection; once the
connection has been closed the socket delivers no further frames. -/
def runFrames (s : ConnHandlerState) (frames : List (Int × Frame)) : ConnHandlerState :=
  frames.foldl (fun st p => if st.closeEvt.isSome then st else onMessage p.1 st p.2) s

/-- The connection registry (`connections` map), keyed by an abstract
socket identity. -/
abbrev Registry : Type := List (Nat × ConnectionMeta)

/-- `connections.has(ws)`. -/
def hasConn (r : Registry) (ws : Nat) : Bool :=
  (List.any r (fun p => p.1 == ws))

/-- `connections.delete(ws)`. -/
def removeConn (r : Registry) (ws : Nat) : Registry :=
  (List.filter (fun p => p.1 ≠ ws) r)

/-- `closeConnection(ws, code, reason)`: clear the pong timer, delete the
registry entry, and issue the socket close. -/
def closeConnection (r : Registry) (ws : Nat) (code : Nat) (reason : String) :
    Registry × CloseAction :=
  (removeConn r ws, ⟨code, reason⟩)

/-- The pong-timeout callback armed in `startHeartbeat`: it closes with
1001 only when the connection is still in the registry, and otherwise
does nothing. -/
def pongTimeoutFire (r : Registry) (ws : Nat) : Registry × Option CloseAction :=
  if hasConn r ws then
    let p := closeConnection r ws PONG_TIMEOUT_CLOSE_CODE "Pong timeout"
    (p.1, some p.2)
  else
    (r, none)

/-- One heartbeat pass over a single connection that answered (or not)
the previous probe: a connection already marked not-alive is closed with
the ping-timeout code. -/
def heartbeatCheck (m : ConnectionMeta) : Option CloseAction :=
  if m.isAlive then none else some ⟨PING_TIMEOUT_CLOSE_CODE, "Ping timeout"⟩

/-- One idle-check pass over a single connection. -/
def idleCheck (now : Int) (m : ConnectionMeta) : Option CloseAction :=
  if now - m.lastActivity > IDLE_TIMEOUT_MS then
    some ⟨IDLE_TIMEOUT_CLOSE_CODE, "Idle timeout"⟩
  else none

/-- `gracefulShutdown`: every open connection is closed with the
shutdown code. -/
def shutdownCloses (r : Registry) : List CloseAction :=
  r.map (fun _ => ⟨SHUTDOWN_CLOSE_CODE, "Server shutting down"⟩)

/-- Admission control in `onConnection`: the close action used to reject
a connection once the registry is full. -/
def overloadedReject : CloseAction :=
  ⟨OVERLOADED_CLOSE_CODE, "Server overloaded"⟩

end WsServer

namespace Errors

/-- The `ErrorCode` enum of the ACP protocol constants module. -/
def ParseError : Int := -32700

def InvalidRequest : Int := -32600

def MethodNotFound : Int := -32601

def InvalidParams : Int := -32602

def InternalError : Int := -32603

def ServerError : Int := -32000

def SessionNotFound : Int := -32001

def SessionAlreadyExists : Int := -32002

def SessionExpired : Int := -32003

def NotInitialized : Int := -32004

def AlreadyInitialized : Int := -32005

def Unauthorized : Int := -32006

def ToolNotFound : Int := -32007

def ApprovalDenied : Int := -32008

def UserInputTimeout : Int := -32009

def GenUIActionFailed : Int := -32010

/-- `const ACP_AUTH_REQUIRED = -32001` from the error hierarchy module. -/
def ACP_AUTH_REQUIRED : Int := -32001

/-- The JSON-RPC-compatible payload carried by every `ACPError`. -/
structure ACPError where
  code : Int
  message : String
deriving DecidableEq, Repr

/-- The `AuthRequiredError` constructor: its code is `ACP_AUTH_REQUIRED`. -/
def AuthRequiredError (message : String) : ACPError :=
  ⟨ACP_AUTH_REQUIRED, message⟩

end Errors

namespace PiSessions

/-- One content element of a message record's `content` array, at the
granularity the head scan reads it: its `type` field when it is a
string, and its `text` field when it is a string. -/
structure CBlock where
  ctype : Option String
  ctext : Option String
deriving DecidableEq, Repr

/-- A parsed JSONL record, restricted to the fields the session
directory reads.  Each field is `none` when absent or not a string (not
an array, for the content fields). -/
structure JRecord where
  rtype : Option String
  id : Option String
  cwd : Option String
  timestamp : Option String
  name : Option String
  msgRole : Option String
  msgContentText : Option String
  msgContentBlocks : Option (List CBlock)
deriving DecidableEq, Repr

/-- A record with every optional field absent; examples override the
fields they need. -/
def emptyRecord : JRecord :=
  { rtype := none, id := none, cwd := none, timestamp := none, name := none
    msgRole := none, msgContentText := none, msgContentBlocks := none }

/-- One line of a session log after trimming: empty, a `JSON.parse`
failure, or a parsed record. -/
inductive PLine where
  | blank : PLine
  | malformed : PLine
  | record : JRecord → PLine
deriving DecidableEq, Repr

/-- The session header extracted by `parseSessionHeader`. -/
structure SessionHeader where
  sessionId : String
  cwd : String
deriving DecidableEq, Repr

/-- `parseSessionHeader(firstLine)`: the line must parse, have
`type === 'session'`, and string-typed truthy `id` and `cwd`. -/
def parseSessionHeader : PLine → Option SessionHeader
  | PLine.record r =>
      if r.rtype = some "session" then
        match r.id, r.cwd with
        | some i, some c => if i = "" ∨ c = "" then none else some ⟨i, c⟩
        | _, _ => none
      else none
  | _ => none

/-- JS `String.prototype.trim`: strip leading and trailing whitespace
(written with structural recursion over the character list so that it
evaluates on concrete inputs). -/
def trimStr (s : String) : String :=
  ⟨((s.data.dropWhile Char.isWhitespace).reverse.dropWhile Char.isWhitespace).reverse⟩

/-- The name a line contributes to the title scans: the trimmed `name`
of a `session_info` record when that trims to something non-empty. -/
def sessionInfoName : PLine → Option String
  | PLine.record r =>
      if r.rtype = some "session_info" then
        match r.name with
        | some n => if trimStr n = "" then none else some (trimStr n)
        | none => none
      else none
  | _ => none

/-- `pickTitleFromTail(tail)`: scan the tail lines backwards for the
latest `session_info` entry carrying a non-empty name. -/
def pickTitleFromTail (tail : List PLine) : Option String :=
  List.findSome? sessionInfoName tail.reverse

/-- The body of the whole-file scan loop: remember the name when the
line carries one (`lastName = obj.name.trim()`), keep the accumulator
otherwise. -/
def keepLast (acc : Option String) (l : PLine) : Option String :=
  match sessionInfoName l with
  | some n => some n
  | none => acc

/-- `scanSessionInfoNameFromFile(path)`: scan the whole file in order
and remember the last `session_info.name` seen. -/
def scanSessionInfoNameFromFile (all : List PLine) : Option String :=
  all.foldl keepLast none

/-- The parsed timestamp a line contributes to the first updatedAt tier:
`type === 'message'`, string `timestamp`, and the date oracle accepts
it. -/
def messageTs (parseD : String → Option Int) : PLine → Option Int
  | PLine.record r =>
      if r.rtype = some "message" then
        match r.timestamp with
        | some ts => parseD ts
        | none => none
      else none
  | _ => none

/-- The parsed timestamp a line contributes to the fallback updatedAt
tier: any record with a string `timestamp` the date oracle accepts. -/
def anyTs (parseD : String → Option Int) : PLine → Option Int
  | PLine.record r =>
      match r.timestamp with
      | some ts => parseD ts
      | none => none
  | _ => none

/-- `pickUpdatedAtFromTail(tail)`: prefer the most recent `message`
timestamp, scanning backwards; fall back to the most recent timestamp of
any record; render the winner with the ISO oracle. -/
def pickUpdatedAtFromTail (parseD : String → Option Int) (isoOf : Int → String)
    (tail : List PLine) : Option String :=
  match List.findSome? (messageTs parseD) tail.reverse with
  | some d => some (isoOf d)
  | none =>
      match List.findSome? (anyTs parseD) tail.reverse with
      | some d => some (isoOf d)
      | none => none

/-- The title a line contributes to the head fallback scan: a `message`
record with `message.role === 'user'` returns its string content sliced
to 80 characters; with array content, the first element whose `type` is
`'text'` and whose `text` is a string returns that text sliced to 80
characters provided it is truthy (non-empty). -/
def userMessageTitle : PLine → Option String
  | PLine.record r =>
      if r.rtype = some "message" ∧ r.msgRole = some "user" then
        match r.msgContentText with
        | some s => some (s.take 80)
        | none =>
            match r.msgContentBlocks with
            | some bs =>
                match bs.find? (fun c => c.ctype = some "text" ∧ c.ctext.isSome) with
                | some c =>
                    match c.ctext with
                    | some t => if t = "" then none else some (t.take 80)
                    | none => none
                | none => none
            | none => none
      else none
  | _ => none

/-- The loop of `pickFallbackTitleFromHead`: blank lines are skipped
outright; any other line is examined, and after an unsuccessful
examination the loop breaks when the whole file holds more than 2000
lines. -/
def headScan (total : Nat) : List PLine → Option String
  | [] => none
  | l :: rest =>
      match l with
      | PLine.blank => headScan total rest
      | _ =>
          match userMessageTitle l with
          | some s => some s
          | none => if total > 2000 then none else headScan total rest

/-- `pickFallbackTitleFromHead(path)`: scan the file from the start for
the first user message, with the 2000-line bail-out measured against
the total line count of the file. -/
def pickFallbackTitleFromHead (all : List PLine) : Option String :=
  headScan all.length all

/-- `PiSessionListItem`. -/
structure PiSessionListItem where
  sessionId : String
  cwd : String
  title : Option String
  updatedAt : Option String
  sessionFile : String
deriving DecidableEq, Repr

/-- One discovered `.jsonl` file as the lister observes it: its first
line (none when the file is empty or unreadable), the lines of its
256KB tail (none when reading the tail threw), all of its lines, and
its filesystem mtime rendered to ISO (none when `statSync` threw). -/
structure SessionFile where
  path : String
  firstLine : Option PLine
  tailLines : Option (List PLine)
  allLines : List PLine
  mtimeISO : Option String
deriving DecidableEq, Repr

/-- The title extracted from the tail inside the try block of
`listPiSessions`; a tail-read exception leaves it `null`. -/
def tailTitle (f : SessionFile) : Option String :=
  match f.tailLines with
  | some tl => pickTitleFromTail tl
  | none => none

/-- The updatedAt extracted from the tail inside the try block of
`listPiSessions`; a tail-read exception leaves it `null`. -/
def tailUpdatedAt (parseD : String → Option Int) (isoOf : Int → String)
    (f : SessionFile) : Option String :=
  match f.tailLines with
  | some tl => pickUpdatedAtFromTail parseD isoOf tl
  | none => none

/-- The tiered title computation of the `listPiSessions` loop: tail
scan, then full-file `session_info` scan, then head fallback. -/
def titleOf (f : SessionFile) : Option String :=
  match tailTitle f with
  | some t => some t
  | none =>
      match scanSessionInfoNameFromFile f.allLines with
      | some t => some t
      | none => pickFallbackTitleFromHead f.allLines

/-- The tiered updatedAt computation of the `listPiSessions` loop: tail
scan, then filesystem mtime. -/
def updatedAtOf (parseD : String → Option Int) (isoOf : Int → String)
    (f : SessionFile) : Option String :=
  match tailUpdatedAt parseD isoOf f with
  | some u => some u
  | none => f.mtimeISO

/-- The body of the `listPiSessions` loop for one file: skip files with
no first line (`!first`) or no parseable session header, then derive
title and updatedAt through the tiered fallbacks. -/
def sessionItemOf (parseD : String → Option Int) (isoOf : Int → String)
    (f : SessionFile) : Option PiSessionListItem :=
  match f.firstLine with
  | none => none
  | some fl =>
      if fl = PLine.blank then none
      else
        match parseSessionHeader fl with
        | none => none
        | some h =>
            some { sessionId := h.sessionId, cwd := h.cwd, title := titleOf f
                   updatedAt := updatedAtOf parseD isoOf f, sessionFile := f.path }

/-- `listPiSessions()`: build an item per parseable file and sort most
recent first, comparing `updatedAt` (absent sorts as the empty string). -/
def listPiSessions (parseD : String → Option Int) (isoOf : Int → String)
    (files : List SessionFile) : List PiSessionListItem :=
  let items := files.filterMap (sessionItemOf parseD isoOf)
  items.mergeSort
    (fun a b => decide ((b.updatedAt.getD "") ≤ (a.updatedAt.getD "")))

/-- How the lines of the 256KB tail relate to the lines of the whole
file: the byte window starts at some line index `k`, possibly preceded
by the remains of a line the window cut in half, which then trims to
empty or fails to parse. -/
def TailSuffix (tl all : List PLine) : Prop :=
  ∃ junk k, (∀ x ∈ junk, x = PLine.blank ∨ x = PLine.malformed) ∧
    tl = junk ++ all.drop k

end PiSessions

namespace Translate

/-- A pi image extracted from an `image` content block. -/
structure PiImage where
  mimeType : String
  data : String
deriving DecidableEq, Repr

/-- An ACP prompt content block, at the granularity `promptToPiMessage`
inspects it.  The `resource` constructor carries the dynamically probed
fields of the nested resource object; `other` stands for any
unrecognized block kind. -/
inductive ContentBlock where
  | text : String → ContentBlock
  | resource_link : String → ContentBlock
  | image : String → String → ContentBlock
  | resource : Option String → Option String → Option String → Option String → ContentBlock
  | audio : String → String → ContentBlock
  | other : ContentBlock
deriving DecidableEq, Repr

/-- The text one block appends to the accumulated message (`b64Len` is
the host oracle for `Buffer.byteLength(data, 'base64')`). -/
def blockText (b64Len : String → Nat) : ContentBlock → String
  | ContentBlock.text t => t
  | ContentBlock.resource_link uri => "\n[Context] " ++ uri
  | ContentBlock.image _ _ => ""
  | ContentBlock.resource uri mime txt blob =>
      let u := uri.getD "(unknown)"
      match txt with
      | some s =>
          "\n[Embedded Context] " ++ u ++ " (" ++ mime.getD "text/plain" ++ ")\n" ++ s
      | none =>
          match blob with
          | some bl =>
              "\n[Embedded Context] " ++ u ++ " (" ++ mime.getD "application/octet-stream"
                ++ ", " ++ toString (b64Len bl) ++ " bytes)"
          | none => "\n[Embedded Context] " ++ u
  | ContentBlock.audio mime data =>
      "\n[Audio] (" ++ mime ++ ", " ++ toString (b64Len data) ++ " bytes) not supported by pi-acp"
  | ContentBlock.other => ""

/-- The images one block pushes onto the image list. -/
def blockImages : ContentBlock → List PiImage
  | ContentBlock.image mime data => [⟨mime, data⟩]
  | _ => []

/-- One iteration of the `promptToPiMessage` loop. -/
def pushBlock (b64Len : String → Nat) (acc : String × List PiImage)
    (b : ContentBlock) : String × List PiImage :=
  match b with
  | ContentBlock.text t => (acc.1 ++ t, acc.2)
  | ContentBlock.resource_link uri => (acc.1 ++ "\n[Context] " ++ uri, acc.2)
  | ContentBlock.image mime data => (acc.1, acc.2 ++ [⟨mime, data⟩])
  | ContentBlock.resource uri mime txt blob =>
      let u := uri.getD "(unknown)"
      match txt with
      | some s =>
          (acc.1 ++ "\n[Embedded Context] " ++ u ++ " (" ++ mime.getD "text/plain"
             ++ ")\n" ++ s, acc.2)
      | none =>
          match blob with
          | some bl =>
              (acc.1 ++ "\n[Embedded Context] " ++ u ++ " ("
                 ++ mime.getD "application/octet-stream" ++ ", "
                 ++ toString (b64Len bl) ++ " bytes)", acc.2)
          | none => (acc.1 ++ "\n[Embedded Context] " ++ u, acc.2)
  | ContentBlock.audio mime data =>
      (acc.1 ++ "\n[Audio] (" ++ mime ++ ", " ++ toString (b64Len data)
         ++ " bytes) not supported by pi-acp", acc.2)
  | ContentBlock.other => acc

/-- `promptToPiMessage(blocks)`: fold the loop body over the block list
starting from the empty message and empty image list. -/
def promptToPiMessage (b64Len : String → Nat) (blocks : List ContentBlock) :
    String × List PiImage :=
  blocks.foldl (pushBlock b64Len) ("", [])

/-- Specification-side rendering of the message text: the per-block
texts concatenated in input order. -/
def concatTexts (b64Len : String → Nat) : List ContentBlock → String
  | [] => ""
  | b :: bs => blockText b64Len b ++ concatTexts b64Len bs

/-- Specification-side image extraction: the per-block image lists
concatenated in input order. -/
def imagesOf : List ContentBlock → List PiImage
  | [] => []
  | b :: bs => blockImages b ++ imagesOf bs

end Translate

namespace Examples

open PiSessions WsServer

/-- Toy date oracle used by witnesses: recognizes a few numeric
timestamp strings. -/
def pdEx : String → Option Int := fun s =>
  if s = "0" then some 0
  else if s = "2" then some 2
  else if s = "10" then some 10
  else none

/-- Toy ISO renderer used by witnesses. -/
def isoEx : Int → String := fun i =>
  if i = 0 then "T0" else if i = 2 then "T2" else if i = 10 then "T10" else "T?"

/-- A session header record, as in the component test fixture. -/
def hdrRec : JRecord :=
  { emptyRecord with rtype := some "session", id := some "sess-1"
                     cwd := some "/tmp/project", timestamp := some "0" }

/-- A user message record with timestamp 2. -/
def msgRec : JRecord :=
  { emptyRecord with rtype := some "message", timestamp := some "2"
                     msgRole := some "user", msgContentText := some "hi" }

/-- A later rename record with timestamp 10. -/
def infoRec : JRecord :=
  { emptyRecord with rtype := some "session_info", timestamp := some "10"
                     name := some "named" }

/-- The fixture of the updatedAt component test: a message at t=2
followed by a `session_info` at t=10. -/
def linesC2 : List PLine :=
  [PLine.record hdrRec, PLine.record msgRec, PLine.record infoRec]

def fileC2 : SessionFile :=
  { path := "s.jsonl", firstLine := some (PLine.record hdrRec)
    tailLines := some linesC2, allLines := linesC2, mtimeISO := some "MT" }

/-- The item `listPiSessions` derives from `fileC2`. -/
def itemC2 : PiSessionListItem :=
  { sessionId := "sess-1", cwd := "/tmp/project", title := some "named"
    updatedAt := some "T2", sessionFile := "s.jsonl" }

/-- An early rename record with no timestamp. -/
def infoEarly : JRecord :=
  { emptyRecord with rtype := some "session_info", name := some "Early Name" }

/-- Trailing filler the rename precedes: assistant messages with no
parseable timestamp. -/
def fillerRec : JRecord :=
  { emptyRecord with rtype := some "message", msgRole := some "assistant" }

/-- A file renamed early and then grown past the tail window: the
`session_info` line sits before the two filler lines the tail window
covers. -/
def linesC3 : List PLine :=
  [PLine.record hdrRec, PLine.record infoEarly,
   PLine.record fillerRec, PLine.record fillerRec]

def fileC3 : SessionFile :=
  { path := "t.jsonl", firstLine := some (PLine.record hdrRec)
    tailLines := some (linesC3.drop 2), allLines := linesC3, mtimeISO := some "MT" }

def itemC3 : PiSessionListItem :=
  { sessionId := "sess-1", cwd := "/tmp/project", title := some "Early Name"
    updatedAt := some "MT", sessionFile := "t.jsonl" }

/-- A 2001-line file whose second line is a user message: total length
exceeds the 2000-line ceiling, so the head fallback bails out after the
first examined line. -/
def linesC4 : List PLine :=
  PLine.record hdrRec :: PLine.record msgRec :: List.replicate 1999 PLine.malformed

/-- A file whose first line is not parseable JSON. -/
def badFile : SessionFile :=
  { path := "junk.jsonl", firstLine := some PLine.malformed
    tailLines := some [PLine.malformed], allLines := [PLine.malformed]
    mtimeISO := some "MT" }

/-- A registry holding one connection, identified by 1. -/
def regEx : Registry := [(1, initialMeta 0)]

/-- A connection one message short of the rate limit, in-window. -/
def nearLimitState : ConnHandlerState :=
  { meta := { lastActivity := 0, messageCount := 100, messageWindowStart := 0
              pingTimeoutArmed := false, isAlive := true }
    enqueued := [Frame.obj (some "x")], closeEvt := none }

end Examples

namespace PiSessions

/-- A backwards scan over a list whose suffix after `a` contributes
nothing finds the value contributed by `a`. -/
theorem findSome?_reverse_last {α β : Type} (g : α → Option β)
    (front : List α) (a : α) (back : List α) (b : β)
    (ha : g a = some b) (hback : ∀ x ∈ back, g x = none) :
    List.findSome? g (front ++ a :: back).reverse = some b := by
  have hrev : (front ++ a :: back).reverse = back.reverse ++ a :: front.reverse := by
    simp
  rw [hrev]
  have hnone : List.findSome? g back.reverse = none := by
    rw [List.findSome?_eq_none_iff]
    intro x hx
    exact hback x (List.mem_reverse.mp hx)
  rw [List.findSome?_append, hnone, List.findSome?_cons, ha]
  rfl

/-- A backwards scan over a list none of whose elements contribute
anything finds nothing. -/
theorem findSome?_reverse_none {α β : Type} (g : α → Option β) (l : List α)
    (h : ∀ x ∈ l, g x = none) : List.findSome? g l.reverse = none := by
  rw [List.findSome?_eq_none_iff]
  intro x hx
  exact h x (List.mem_reverse.mp hx)

/-- The scan loop body keeps the last contributed value. -/
theorem keepLast_or (acc : Option String) (l : PLine) :
    keepLast acc l = (sessionInfoName l).or acc := by
  unfold keepLast
  cases sessionInfoName l <;> rfl

/-- A keep-the-last-result fold equals a backwards scan with the
initial accumulator as final fallback. -/
theorem foldl_keepLast (l : List PLine) :
    ∀ acc : Option String,
      l.foldl keepLast acc = (List.findSome? sessionInfoName l.reverse).or acc := by
  induction l with
  | nil => intro acc; simp
  | cons a l ih =>
      intro acc
      rw [List.foldl_cons, ih, List.reverse_cons, List.findSome?_append]
      rw [keepLast_or]
      cases hX : List.findSome? sessionInfoName l.reverse <;>
        cases hga : sessionInfoName a <;>
          simp [List.findSome?_cons, hga, Option.or]

/-- The full-file rename scan agrees with a backwards scan of all
lines. -/
theorem scan_eq_pickTitle (all : List PLine) :
    scanSessionInfoNameFromFile all = pickTitleFromTail all := by
  unfold scanSessionInfoNameFromFile pickTitleFromTail
  rw [foldl_keepLast all none]
  cases List.findSome? sessionInfoName all.reverse <;> rfl

/-- Lines that are blank or unparseable contribute no rename. -/
theorem sessionInfoName_junk (x : PLine)
    (h : x = PLine.blank ∨ x = PLine.malformed) : sessionInfoName x = none := by
  cases h <;> subst_vars <;> rfl

/-- A line contributing no fallback timestamp contributes no message
timestamp either. -/
theorem messageTs_none_of_anyTs_none (parseD : String → Option Int) (l : PLine)
    (h : anyTs parseD l = none) : messageTs parseD l = none := by
  cases l with
  | blank => rfl
  | malformed => rfl
  | record r =>
      simp only [anyTs] at h
      simp only [messageTs]
      split
      · exact h
      · rfl

/-- Elimination form of `sessionItemOf`: a produced item's fields come
from the parsed header and the tiered title/updatedAt computations. -/
theorem sessionItemOf_some (parseD : String → Option Int) (isoOf : Int → String)
    (f : SessionFile) (item : PiSessionListItem)
    (h : sessionItemOf parseD isoOf f = some item) :
    ∃ fl hd, f.firstLine = some fl ∧ fl ≠ PLine.blank ∧
      parseSessionHeader fl = some hd ∧
      item = { sessionId := hd.sessionId, cwd := hd.cwd, title := titleOf f
               updatedAt := updatedAtOf parseD isoOf f, sessionFile := f.path } := by
  unfold sessionItemOf at h
  split at h
  · cases h
  next fl hfl =>
    split at h
    · cases h
    next hb =>
      split at h
      · cases h
      next hd hhd =>
        exact ⟨fl, hd, hfl, hb, hhd, (Option.some_inj.mp h).symm⟩

end PiSessions

open WsServer PiSessions Translate Examples in
/-- C1 counterexample: the claim that the close codes for idle timeout,
ping timeout, pong timeout and shutdown are pairwise distinct (and that
the rate-limit and overload codes differ) is false on the code, which
uses 1001 for all four eviction conditions. -/
theorem close_codes_not_pairwise_distinct :
    ¬ (IDLE_TIMEOUT_CLOSE_CODE ≠ PING_TIMEOUT_CLOSE_CODE ∧
       IDLE_TIMEOUT_CLOSE_CODE ≠ PONG_TIMEOUT_CLOSE_CODE ∧
       IDLE_TIMEOUT_CLOSE_CODE ≠ SHUTDOWN_CLOSE_CODE ∧
       PING_TIMEOUT_CLOSE_CODE ≠ PONG_TIMEOUT_CLOSE_CODE ∧
       PING_TIMEOUT_CLOSE_CODE ≠ SHUTDOWN_CLOSE_CODE ∧
       PONG_TIMEOUT_CLOSE_CODE ≠ SHUTDOWN_CLOSE_CODE ∧
       RATE_LIMIT_CLOSE_CODE ≠ OVERLOADED_CLOSE_CODE) := by
  decide

open WsServer in
/-- C1 (amended): the rate-limit code (1008) and the overloaded code
(1013) are distinct from each other and from 1001, but idle timeout,
ping timeout, pong timeout and shutdown all share close code 1001, so a
close code identifies the cause only up to that group. -/
theorem close_codes_amended :
    RATE_LIMIT_CLOSE_CODE ≠ OVERLOADED_CLOSE_CODE ∧
    RATE_LIMIT_CLOSE_CODE ≠ 1001 ∧
    OVERLOADED_CLOSE_CODE ≠ 1001 ∧
    IDLE_TIMEOUT_CLOSE_CODE = 1001 ∧
    PING_TIMEOUT_CLOSE_CODE = 1001 ∧
    PONG_TIMEOUT_CLOSE_CODE = 1001 ∧
    SHUTDOWN_CLOSE_CODE = 1001 := by
  decide

open PiSessions in
/-- On a file longer than 2000 lines, the head scan gives up right
after the first examined line when that line yields no title. -/
theorem headScan_bail (total : Nat) (l : PLine) (rest : List PLine)
    (htotal : total > 2000) (hnb : l ≠ PLine.blank)
    (hnone : userMessageTitle l = none) :
    headScan total (l :: rest) = none := by
  cases l with
  | blank => exact absurd rfl hnb
  | malformed =>
      simp only [headScan, hnone]
      rw [if_pos htotal]
  | record r =>
      simp only [headScan, hnone]
      rw [if_pos htotal]

set_option maxRecDepth 8000 in
open PiSessions Examples in
/-- C4: on a file of 2001 lines whose second line is a user message,
the head fallback returns no title, although the claim (and the
comment in the source) promise that a user message within the first
2000 lines is found: the bail-out compares the total line count, so any
file longer than 2000 lines is abandoned after its first examined
line. -/
theorem fallback_title_bails_after_first_line :
    linesC4.length = 2001 ∧
    linesC4 = PLine.record hdrRec :: PLine.record msgRec
                :: List.replicate 1999 PLine.malformed ∧
    userMessageTitle (PLine.record msgRec) = some "hi" ∧
    pickFallbackTitleFromHead linesC4 = none := by
  have hlen : linesC4.length = 2001 := by
    rw [linesC4, List.length_cons, List.length_cons, List.length_replicate]
  refine ⟨hlen, rfl, by decide, ?_⟩
  · unfold pickFallbackTitleFromHead
    rw [hlen]
    show headScan 2001
      (PLine.record hdrRec :: PLine.record msgRec :: List.replicate 1999 PLine.malformed) = none
    exact headScan_bail 2001 (PLine.record hdrRec) _ (by decide) (by decide) (by decide)

open Errors in
/-- C8: the custom auth error code and `ErrorCode.SessionNotFound`
collide: `AuthRequiredError` carries -32001, the very value of
`SessionNotFound`, instead of the distinct codes the claim requires. -/
theorem auth_code_collides_with_session_not_found :
    (AuthRequiredError "Authentication required").code = SessionNotFound ∧
    ACP_AUTH_REQUIRED = -32001 ∧
    SessionNotFound = -32001 := by
  decide

open WsServer in
/-- C9: a pong-timeout callback firing for a connection that is no
longer in the registry leaves the registry untouched and issues no
close; the callback is a total function, so no error is raised. -/
theorem pong_timeout_noop_when_unregistered (r : Registry) (ws : Nat)
    (h : hasConn r ws = false) :
    pongTimeoutFire r ws = (r, none) := by
  unfold pongTimeoutFire
  rw [h]
  simp

open WsServer Examples in
/-- C9 witness: with the registry holding only connection 1, the
pong-timeout callback for connection 2 is a no-op. -/
theorem pong_timeout_noop_when_unregistered_witness :
    hasConn regEx 2 = false ∧ pongTimeoutFire regEx 2 = (regEx, none) :=
  ⟨by decide, pong_timeout_noop_when_unregistered regEx 2 (by decide)⟩

namespace Translate

/-- Each loop iteration appends that block's text contribution and its
image contribution. -/
theorem pushBlock_split (b64Len : String → Nat) (acc : String × List PiImage)
    (b : ContentBlock) :
    pushBlock b64Len acc b = (acc.1 ++ blockText b64Len b, acc.2 ++ blockImages b) := by
  cases b with
  | text t => simp [pushBlock, blockText, blockImages]
  | resource_link uri => simp [pushBlock, blockText, blockImages, String.append_assoc]
  | image m d => simp [pushBlock, blockText, blockImages]
  | resource uri mime txt blob =>
      cases txt <;> cases blob <;>
        simp [pushBlock, blockText, blockImages, String.append_assoc]
  | audio m d => simp [pushBlock, blockText, blockImages, String.append_assoc]
  | other => simp [pushBlock, blockText, blockImages]

/-- The translation loop is a fold of per-block contributions. -/
theorem foldl_pushBlock (b64Len : String → Nat) (blocks : List ContentBlock) :
    ∀ acc : String × List PiImage,
      blocks.foldl (pushBlock b64Len) acc
        = (acc.1 ++ concatTexts b64Len blocks, acc.2 ++ imagesOf blocks) := by
  induction blocks with
  | nil =>
      intro acc
      obtain ⟨a1, a2⟩ := acc
      simp [concatTexts, imagesOf]
  | cons b bs ih =>
      intro acc
      rw [List.foldl_cons, pushBlock_split, ih]
      simp [concatTexts, imagesOf, List.append_assoc, String.append_assoc]

end Translate

open Translate in
/-- C7: `promptToPiMessage` is a pure function of the block list: the
message is the in-order concatenation of each block's text contribution
(text blocks verbatim, resource links as context markers, image blocks
contributing nothing, unknown blocks contributing nothing), and the
image list is the in-order extraction of the image blocks with their
mime type and raw base64 data. -/
theorem promptToPiMessage_pure_translation (b64Len : String → Nat)
    (blocks : List ContentBlock) :
    promptToPiMessage b64Len blocks = (concatTexts b64Len blocks, imagesOf blocks) := by
  unfold promptToPiMessage
  rw [foldl_pushBlock]
  simp

open PiSessions in
/-- C5: every entry of the listing comes from a file whose first line
parses as a `type: session` header; files without such a header
produce no entry at all. -/
theorem listing_requires_parseable_header
    (parseD : String → Option Int) (isoOf : Int → String)
    (files : List SessionFile) (item : PiSessionListItem)
    (h : item ∈ listPiSessions parseD isoOf files) :
    ∃ f, f ∈ files ∧ sessionItemOf parseD isoOf f = some item ∧
      ∃ fl hd, f.firstLine = some fl ∧ parseSessionHeader fl = some hd ∧
        item.sessionId = hd.sessionId ∧ item.cwd = hd.cwd := by
  simp only [listPiSessions] at h
  rw [List.mem_mergeSort] at h
  obtain ⟨f, hf, hsome⟩ := List.mem_filterMap.mp h
  obtain ⟨fl, hd, hfl, hnb, hhd, hitem⟩ :=
    sessionItemOf_some parseD isoOf f item hsome
  exact ⟨f, hf, hsome, fl, hd, hfl, hhd, by rw [hitem], by rw [hitem]⟩

set_option maxRecDepth 4000 in
open PiSessions Examples in
/-- C5 witness: in a listing over one well-formed file and one file
with an unparseable first line, the produced entry traces back to the
well-formed file and its parsed header. -/
theorem listing_requires_parseable_header_witness :
    ∃ f, f ∈ [fileC2, badFile] ∧ sessionItemOf pdEx isoEx f = some itemC2 ∧
      ∃ fl hd, f.firstLine = some fl ∧ parseSessionHeader fl = some hd ∧
        itemC2.sessionId = hd.sessionId ∧ itemC2.cwd = hd.cwd :=
  listing_requires_parseable_header pdEx isoEx [fileC2, badFile] itemC2
    (by simp only [listPiSessions]
        rw [List.mem_mergeSort]
        decide)

open PiSessions in
/-- C2: for a listed file whose tail was readable, `updatedAt` is the
(ISO-rendered) timestamp of the most recent `message` record with a
parseable timestamp in the tail, even when later non-message records
carry later timestamps; with no such message record it is the most
recent parseable timestamp of any record; with none at all it is the
filesystem modification time. -/
theorem updatedAt_prefers_message_timestamps
    (parseD : String → Option Int) (isoOf : Int → String) (f : SessionFile)
    (item : PiSessionListItem) (tl : List PLine)
    (hitem : sessionItemOf parseD isoOf f = some item)
    (htl : f.tailLines = some tl) :
    (∀ front m back t, tl = front ++ m :: back → messageTs parseD m = some t →
        (∀ x ∈ back, messageTs parseD x = none) → item.updatedAt = some (isoOf t))
    ∧ ((∀ x ∈ tl, messageTs parseD x = none) →
        ∀ front m back t, tl = front ++ m :: back → anyTs parseD m = some t →
          (∀ x ∈ back, anyTs parseD x = none) → item.updatedAt = some (isoOf t))
    ∧ ((∀ x ∈ tl, anyTs parseD x = none) → item.updatedAt = f.mtimeISO) := by
  obtain ⟨fl, hd, hfl, hnb, hhd, hitem_eq⟩ :=
    sessionItemOf_some parseD isoOf f item hitem
  subst hitem_eq
  refine ⟨?_, ?_, ?_⟩
  · intro front m back t hdecomp hm hback
    show updatedAtOf parseD isoOf f = some (isoOf t)
    have h1 : pickUpdatedAtFromTail parseD isoOf tl = some (isoOf t) := by
      unfold pickUpdatedAtFromTail
      rw [hdecomp, findSome?_reverse_last (messageTs parseD) front m back t hm hback]
    simp only [updatedAtOf, tailUpdatedAt, htl, h1]
  · intro hnomsg front m back t hdecomp hm hback
    show updatedAtOf parseD isoOf f = some (isoOf t)
    have h0 : List.findSome? (messageTs parseD) tl.reverse = none :=
      findSome?_reverse_none _ _ hnomsg
    have h1 : pickUpdatedAtFromTail parseD isoOf tl = some (isoOf t) := by
      unfold pickUpdatedAtFromTail
      rw [h0, hdecomp, findSome?_reverse_last (anyTs parseD) front m back t hm hback]
    simp only [updatedAtOf, tailUpdatedAt, htl, h1]
  · intro hno
    show updatedAtOf parseD isoOf f = f.mtimeISO
    have h0 : List.findSome? (messageTs parseD) tl.reverse = none :=
      findSome?_reverse_none _ _
        (fun x hx => messageTs_none_of_anyTs_none parseD x (hno x hx))
    have h1 : List.findSome? (anyTs parseD) tl.reverse = none :=
      findSome?_reverse_none _ _ hno
    have h2 : pickUpdatedAtFromTail parseD isoOf tl = none := by
      unfold pickUpdatedAtFromTail
      rw [h0, h1]
    simp only [updatedAtOf, tailUpdatedAt, htl, h2]

set_option maxRecDepth 4000 in
open PiSessions Examples in
/-- C2 witness: on the component-test fixture (message at t=2, later
rename record at t=10), the entry's updatedAt is the rendering of t=2,
the message timestamp, not t=10. -/
theorem updatedAt_prefers_message_timestamps_witness :
    itemC2.updatedAt = some (isoEx 2) ∧ isoEx 2 = "T2" ∧
    anyTs pdEx (PLine.record infoRec) = some 10 :=
  ⟨(updatedAt_prefers_message_timestamps pdEx isoEx fileC2 itemC2 linesC2
      (by decide) rfl).1
      [PLine.record hdrRec] (PLine.record msgRec) [PLine.record infoRec] 2
      rfl (by decide) (by decide),
   by decide, by decide⟩

open PiSessions in
/-- C3: when a file contains at least one `session_info` record with a
non-empty name, the listed title is the name of the last such record in
file order, whether that record is inside the tail window or before it
(in which case the full-file scan recovers it). -/
theorem title_from_last_session_info
    (parseD : String → Option Int) (isoOf : Int → String) (f : SessionFile)
    (item : PiSessionListItem) (front : List PLine) (a : PLine)
    (back : List PLine) (n : String)
    (hitem : sessionItemOf parseD isoOf f = some item)
    (hall : f.allLines = front ++ a :: back)
    (ha : sessionInfoName a = some n)
    (hback : ∀ x ∈ back, sessionInfoName x = none)
    (htail : ∀ tl, f.tailLines = some tl → TailSuffix tl f.allLines) :
    item.title = some n := by
  obtain ⟨fl, hd, hfl, hnb, hhd, hitem_eq⟩ :=
    sessionItemOf_some parseD isoOf f item hitem
  subst hitem_eq
  show titleOf f = some n
  have hscan : scanSessionInfoNameFromFile f.allLines = some n := by
    rw [scan_eq_pickTitle]
    unfold pickTitleFromTail
    rw [hall]
    exact findSome?_reverse_last sessionInfoName front a back n ha hback
  cases htl : f.tailLines with
  | none =>
      have h0 : tailTitle f = none := by simp only [tailTitle, htl]
      simp only [titleOf, h0, hscan]
  | some tl =>
      obtain ⟨junk, k, hjunk, heq⟩ := htail tl htl
      by_cases hk : k ≤ front.length
      · have hz : k - front.length = 0 := Nat.sub_eq_zero_of_le hk
        have hdropk : f.allLines.drop k = front.drop k ++ a :: back := by
          rw [hall, List.drop_append_eq_append_drop, hz, List.drop_zero]
        have heq2 : tl = (junk ++ front.drop k) ++ a :: back := by
          rw [heq, hdropk, List.append_assoc]
        have h1 : tailTitle f = some n := by
          simp only [tailTitle, htl]
          unfold pickTitleFromTail
          rw [heq2]
          exact findSome?_reverse_last sessionInfoName
            (junk ++ front.drop k) a back n ha hback
        simp only [titleOf, h1]
      · push_neg at hk
        have hfr : (front ++ [a]).length ≤ k := by
          rw [List.length_append, List.length_singleton]
          omega
        have hdropk : f.allLines.drop k = back.drop (k - (front ++ [a]).length) := by
          rw [hall, show front ++ a :: back = (front ++ [a]) ++ back from by simp]
          rw [List.drop_append_eq_append_drop, List.drop_eq_nil_of_le hfr,
            List.nil_append]
        have h1 : tailTitle f = none := by
          simp only [tailTitle, htl]
          unfold pickTitleFromTail
          apply findSome?_reverse_none
          intro x hx
          rw [heq, hdropk] at hx
          rcases List.mem_append.mp hx with hj | hdk
          · exact sessionInfoName_junk x (hjunk x hj)
          · exact hback x (List.mem_of_mem_drop hdk)
        simp only [titleOf, h1, hscan]

set_option maxRecDepth 4000 in
open PiSessions Examples in
/-- C3 witness: a file renamed on its second line and then grown so
that the tail window covers only the last two filler lines still lists
with the early name, via the full-file fallback. -/
theorem title_from_last_session_info_witness :
    itemC3.title = some "Early Name" ∧
    fileC3.tailLines = some [PLine.record fillerRec, PLine.record fillerRec] ∧
    pickTitleFromTail [PLine.record fillerRec, PLine.record fillerRec] = none :=
  ⟨title_from_last_session_info pdEx isoEx fileC3 itemC3
      [PLine.record hdrRec] (PLine.record infoEarly)
      [PLine.record fillerRec, PLine.record fillerRec] "Early Name"
      (by decide) rfl (by decide) (by decide)
      (fun tl htl => ⟨[], 2, fun x hx => absurd hx (List.not_mem_nil x),
        by injection htl with h2; rw [← h2]; rfl⟩),
   rfl, by decide⟩

open WsServer in
/-- C6: the first message arriving strictly more than the 60s window
after the window start resets the window, restarts the counter at 1 and
is not rate-limited; a message pushing the counter strictly above 100
inside the window closes the connection with the policy-violation code
1008 and is dropped, never enqueued to the bridge stream. -/
theorem rate_limit_reset_and_violation (now : Int) (s : ConnHandlerState) (f : Frame) :
    (now - s.meta.messageWindowStart > RATE_LIMIT_WINDOW_MS →
       (onMessage now s f).closeEvt = s.closeEvt ∧
       (onMessage now s f).meta.messageCount = 1 ∧
       (onMessage now s f).meta.messageWindowStart = now)
    ∧ (now - s.meta.messageWindowStart ≤ RATE_LIMIT_WINDOW_MS →
       s.meta.messageCount + 1 > RATE_LIMIT_MESSAGES →
       (onMessage now s f).closeEvt
           = some ⟨RATE_LIMIT_CLOSE_CODE, "Rate limit exceeded"⟩ ∧
       (onMessage now s f).enqueued = s.enqueued) := by
  constructor
  · intro h
    cases f with
    | malformed => simp [onMessage, isRateLimited, h]
    | falsy => simp [onMessage, isRateLimited, h]
    | obj t =>
        by_cases hp : t = some "ping" ∨ t = some "pong" <;>
          simp [onMessage, isRateLimited, h, hp]
  · intro h1 h2
    have hnc : ¬ (now - s.meta.messageWindowStart > RATE_LIMIT_WINDOW_MS) :=
      not_lt.mpr h1
    simp [onMessage, isRateLimited, hnc, h2]

open WsServer Examples in
/-- C6 witness: a message 60001ms after the window start resets the
window (counter 1, no close); a 101st in-window message closes with
1008 and leaves the enqueued stream untouched. -/
theorem rate_limit_reset_and_violation_witness :
    ((onMessage 60001 (initialHandlerState 0) (Frame.obj (some "m"))).closeEvt
        = (initialHandlerState 0).closeEvt ∧
     (onMessage 60001 (initialHandlerState 0) (Frame.obj (some "m"))).meta.messageCount = 1 ∧
     (onMessage 60001 (initialHandlerState 0) (Frame.obj (some "m"))).meta.messageWindowStart
        = 60001) ∧
    ((onMessage 10 nearLimitState (Frame.obj (some "y"))).closeEvt
        = some ⟨RATE_LIMIT_CLOSE_CODE, "Rate limit exceeded"⟩ ∧
     (onMessage 10 nearLimitState (Frame.obj (some "y"))).enqueued
        = nearLimitState.enqueued) :=
  ⟨(rate_limit_reset_and_violation 60001 (initialHandlerState 0)
      (Frame.obj (some "m"))).1 (by decide),
   (rate_limit_reset_and_violation 10 nearLimitState
      (Frame.obj (some "y"))).2 (by decide) (by decide)⟩


namespace WsServer

/-- Every inbound frame refreshes the activity clock before anything
else. -/
theorem onMessage_lastActivity (now : Int) (s : ConnHandlerState) (f : Frame) :
    (onMessage now s f).meta.lastActivity = now := by
  by_cases hw : now - s.meta.messageWindowStart > RATE_LIMIT_WINDOW_MS
  · cases f with
    | malformed => simp [onMessage, isRateLimited, hw]
    | falsy => simp [onMessage, isRateLimited, hw]
    | obj t =>
        by_cases hp : t = some "ping" ∨ t = some "pong" <;>
          simp [onMessage, isRateLimited, hw, hp]
  · by_cases hc : s.meta.messageCount + 1 > RATE_LIMIT_MESSAGES
    · simp [onMessage, isRateLimited, hw, hc]
    · cases f with
      | malformed => simp [onMessage, isRateLimited, hw, hc]
      | falsy => simp [onMessage, isRateLimited, hw, hc]
      | obj t =>
          by_cases hp : t = some "ping" ∨ t = some "pong" <;>
            simp [onMessage, isRateLimited, hw, hc, hp]

/-- Every inbound frame inside the window increments the counter,
whatever its kind and whether or not it trips the limit. -/
theorem onMessage_inwindow_count (now : Int) (s : ConnHandlerState) (f : Frame)
    (hw : now - s.meta.messageWindowStart ≤ RATE_LIMIT_WINDOW_MS) :
    (onMessage now s f).meta.messageCount = s.meta.messageCount + 1 := by
  have hnc : ¬ (now - s.meta.messageWindowStart > RATE_LIMIT_WINDOW_MS) :=
    not_lt.mpr hw
  by_cases hc : s.meta.messageCount + 1 > RATE_LIMIT_MESSAGES
  · simp [onMessage, isRateLimited, hnc, hc]
  · cases f with
    | malformed => simp [onMessage, isRateLimited, hnc, hc]
    | falsy => simp [onMessage, isRateLimited, hnc, hc]
    | obj t =>
        by_cases hp : t = some "ping" ∨ t = some "pong" <;>
          simp [onMessage, isRateLimited, hnc, hc, hp]

/-- Ping/pong typed frames are never enqueued to the bridge stream, in
any window state. -/
theorem onMessage_pingpong_enqueued (now : Int) (s : ConnHandlerState)
    (t : Option String) (ht : t = some "ping" ∨ t = some "pong") :
    (onMessage now s (Frame.obj t)).enqueued = s.enqueued := by
  by_cases hw : now - s.meta.messageWindowStart > RATE_LIMIT_WINDOW_MS
  · simp [onMessage, isRateLimited, hw, ht]
  · by_cases hc : s.meta.messageCount + 1 > RATE_LIMIT_MESSAGES <;>
      simp [onMessage, isRateLimited, hw, hc, ht]

end WsServer

set_option maxRecDepth 20000 in
open WsServer Examples in
/-- C10: a frame parsing to an object of type ping or pong refreshes
the activity clock and is counted against the rate window before the
type filter runs, yet is never enqueued to the bridge stream; a client
sending 101 such frames inside one window is closed with 1008 while the
bridge receives nothing. -/
theorem ping_pong_counted_not_forwarded (now : Int) (s : ConnHandlerState)
    (t : Option String) (ht : t = some "ping" ∨ t = some "pong") :
    (onMessage now s (Frame.obj t)).enqueued = s.enqueued ∧
    (onMessage now s (Frame.obj t)).meta.lastActivity = now ∧
    (now - s.meta.messageWindowStart ≤ RATE_LIMIT_WINDOW_MS →
      (onMessage now s (Frame.obj t)).meta.messageCount = s.meta.messageCount + 1) ∧
    (runFrames (initialHandlerState 0) (List.replicate 101 (0, Frame.obj t))).closeEvt
        = some ⟨RATE_LIMIT_CLOSE_CODE, "Rate limit exceeded"⟩ ∧
    (runFrames (initialHandlerState 0) (List.replicate 101 (0, Frame.obj t))).enqueued
        = [] := by
  refine ⟨onMessage_pingpong_enqueued now s t ht,
    onMessage_lastActivity now s (Frame.obj t),
    fun hw => onMessage_inwindow_count now s (Frame.obj t) hw, ?_, ?_⟩ <;>
    (rcases ht with h | h <;> subst h <;> decide)

set_option maxRecDepth 20000 in
open WsServer Examples in
/-- C10 witness: a ping-typed frame on a fresh connection at t=5 is
counted (counter 1), refreshes activity to 5, enqueues nothing; 101
pings close the connection with 1008 while nothing was forwarded. -/
theorem ping_pong_counted_not_forwarded_witness :
    (onMessage 5 (initialHandlerState 0) (Frame.obj (some "ping"))).enqueued
        = (initialHandlerState 0).enqueued ∧
    (onMessage 5 (initialHandlerState 0) (Frame.obj (some "ping"))).meta.lastActivity = 5 ∧
    (onMessage 5 (initialHandlerState 0) (Frame.obj (some "ping"))).meta.messageCount
        = (initialHandlerState 0).meta.messageCount + 1 ∧
    (runFrames (initialHandlerState 0)
        (List.replicate 101 (0, Frame.obj (some "ping")))).closeEvt
        = some ⟨RATE_LIMIT_CLOSE_CODE, "Rate limit exceeded"⟩ ∧
    (runFrames (initialHandlerState 0)
        (List.replicate 101 (0, Frame.obj (some "ping")))).enqueued = [] := by
  have h := ping_pong_counted_not_forwarded 5 (initialHandlerState 0)
    (some "ping") (Or.inl rfl)
  exact ⟨h.1, h.2.1, h.2.2.1 (by decide), h.2.2.2.1, h.2.2.2.2⟩
